import Mathlib

/-!
Verification development for the `swat_van3` image-classification backbone
(a Visual Attention Network variant).  The forward computation graph is
embedded shallowly at two levels:

* a *shape semantics*: every tensor operation is mirrored by a function on
  4-d (or 3-d) shapes returning `Option` — `none` models the runtime error
  the tensor library raises (channel mismatch, non-divisible rearrange
  factor, broadcast failure, ...);
* a *value semantics*: tensors are total functions from indices to `ℚ`,
  with convolution, batch normalization (inference mode), einops-style
  rearranges, dropout and stochastic depth written out explicitly.

Fixed per-stage lookup tables, module constructors and the four named
presets are translated directly from the source.
-/

/-! ## Per-stage fixed lookup tables (from `swat_van3.py`) -/

/-- `Attention.__init__` line:
`self.c, self.h, self.w, self.ks = {0:(16,2,2,1), 1:(8,4,4,3), 2:(5,8,8,5), 3:(2,16,16,7)}[layer]`.
A missing key raises (`KeyError`), modelled as `none`. -/
def attnSplit : Nat → Option (Nat × Nat × Nat × Nat)
  | 0 => some (16, 2, 2, 1)
  | 1 => some (8, 4, 4, 3)
  | 2 => some (5, 8, 8, 5)
  | 3 => some (2, 16, 16, 7)
  | _ => none

/-- `DWConv.__init__` line: `self.ks = {0:5, 1:5, 2:5, 3:3}[layer]`. -/
def dwKs : Nat → Option Nat
  | 0 => some 5
  | 1 => some 5
  | 2 => some 5
  | 3 => some 3
  | _ => none

/-- `OverlapPatchEmbed.__init__` (layer ≠ 0) line:
`self.c, self.cout, self.h, self.w, self.ks = {1:(16,8,2,2,5), 2:(8,5,4,4,7), 3:(5,2,8,8,9)}[layer]`. -/
def peSplit : Nat → Option (Nat × Nat × Nat × Nat × Nat)
  | 1 => some (16, 8, 2, 2, 5)
  | 2 => some (8, 5, 4, 4, 7)
  | 3 => some (5, 2, 8, 8, 9)
  | _ => none

/-! ## Shape semantics -/

/-- Shape of a 4-d tensor `(batch, channel, height, width)`. -/
structure Shape4 where
  b : Nat
  c : Nat
  h : Nat
  w : Nat
deriving DecidableEq, Repr

/-- Shape of a 3-d token tensor `(batch, tokens, channel)`. -/
structure Shape3 where
  b : Nat
  n : Nat
  c : Nat
deriving DecidableEq, Repr

/-- Static configuration of an `nn.Conv2d` (square kernel). -/
structure Conv2dCfg where
  inC : Nat
  outC : Nat
  k : Nat
  stride : Nat
  pad : Nat
  dil : Nat
  groups : Nat
deriving DecidableEq, Repr

/-- A 1×1 convolution `nn.Conv2d(a, b, 1)`. -/
def pointwiseCfg (a b : Nat) : Conv2dCfg := ⟨a, b, 1, 1, 0, 1, 1⟩

/-- Output extent of a convolution along one spatial axis:
`(n + 2·pad - dilation·(k-1) - 1) / stride + 1`; `none` when the padded
input is smaller than the dilated kernel (the runtime rejects that). -/
def convOutDim (n k stride pad dil : Nat) : Option Nat :=
  if dil * (k - 1) + 1 ≤ n + 2 * pad then
    some ((n + 2 * pad - (dil * (k - 1) + 1)) / stride + 1)
  else none

/-- Shape behaviour of `nn.Conv2d`: the input channel count must equal the
configured `in_channels`, spatial extents follow `convOutDim`. -/
def conv2dShape (cfg : Conv2dCfg) (s : Shape4) : Option Shape4 :=
  if s.c = cfg.inC then
    (convOutDim s.h cfg.k cfg.stride cfg.pad cfg.dil).bind fun oh =>
    (convOutDim s.w cfg.k cfg.stride cfg.pad cfg.dil).bind fun ow =>
    some ⟨s.b, cfg.outC, oh, ow⟩
  else none

/-- Shape behaviour of `nn.BatchNorm2d(features)`: identity, but the channel
count must match `features`. -/
def bnShape (features : Nat) (s : Shape4) : Option Shape4 :=
  if s.c = features then some s else none

/-- Broadcasting of one dimension (PyTorch semantics): equal, or one side 1. -/
def broadcastDim (a b : Nat) : Option Nat :=
  if a = b then some a else if a = 1 then some b else if b = 1 then some a else none

/-- Shape of an elementwise binary operation (`+` or `*`) with broadcasting. -/
def elemwiseShape (s t : Shape4) : Option Shape4 :=
  (broadcastDim s.b t.b).bind fun b =>
  (broadcastDim s.c t.c).bind fun c =>
  (broadcastDim s.h t.h).bind fun h =>
  (broadcastDim s.w t.w).bind fun w =>
  some ⟨b, c, h, w⟩

/-- Shape of `rearrange(x, 'b (c p1 p2) n1 n2 -> b c (n1 p1) (n2 p2)', p1=h, p2=w)`:
the channel count must factor as `c·h·w` (einops rejects a non-divisible
channel count), spatial extents are multiplied out. -/
def rearrangeCSShape (h w : Nat) (s : Shape4) : Option Shape4 :=
  if 0 < h * w ∧ s.c % (h * w) = 0 then
    some ⟨s.b, s.c / (h * w), s.h * h, s.w * w⟩
  else none

/-- Shape of `rearrange(x, 'b c (n1 p1) (n2 p2) -> b (c p1 p2) n1 n2', p1=h, p2=w)`:
both spatial extents must be divisible by the split factors. -/
def rearrangeSCShape (h w : Nat) (s : Shape4) : Option Shape4 :=
  if 0 < h ∧ 0 < w ∧ s.h % h = 0 ∧ s.w % w = 0 then
    some ⟨s.b, s.c * (h * w), s.h / h, s.w / w⟩
  else none

/-! ### Module constructors (shape level)

Each `__init__` that consults a per-stage lookup table is modelled by an
`Option`-returning constructor; a missing table entry fails construction. -/

/-- Static data of a constructed `Attention(d_model, layer)`. -/
structure AttnCfg where
  dModel : Nat
  c : Nat
  h : Nat
  w : Nat
  ks : Nat
deriving DecidableEq, Repr

/-- `Attention.__init__`: looks up `attnSplit layer`; a stage index outside
the table fails construction. -/
def attentionInit (dModel layer : Nat) : Option AttnCfg :=
  (attnSplit layer).map fun t => ⟨dModel, t.1, t.2.1, t.2.2.1, t.2.2.2⟩

/-- Static data of a constructed `DWConv(dim, layer)`. -/
structure DWCfg where
  dim : Nat
  ks : Nat
deriving DecidableEq, Repr

/-- `DWConv.__init__`: looks up `dwKs layer`. -/
def dwconvInit (dim layer : Nat) : Option DWCfg :=
  (dwKs layer).map fun k => ⟨dim, k⟩

/-- Static data of a constructed `Mlp(in, hidden, out, layer)`. -/
structure MlpCfg where
  inF : Nat
  hidden : Nat
  outF : Nat
  layer : Nat
  dwks : Nat
deriving DecidableEq, Repr

/-- `Mlp.__init__`: constructs its inner `DWConv` from the stage table. -/
def mlpInit (inF hidden outF layer : Nat) : Option MlpCfg :=
  (dwKs layer).map fun k => ⟨inF, hidden, outF, layer, k⟩

/-- Shape behaviour of `DWConv.forward`: one grouped convolution with
`groups = dim`, kernel `ks`, padding `ks // 2`. -/
def dwConvShape (D : DWCfg) (s : Shape4) : Option Shape4 :=
  conv2dShape ⟨D.dim, D.dim, D.ks, 1, D.ks / 2, 1, D.dim⟩ s

/-- Shape behaviour of `LKA.forward` on a unit built with `LKA(dim)`:
depthwise 5×5 (pad 2), depthwise 7×7 dilation 3 (pad 9), pointwise 1×1,
then the elementwise product with the saved input. -/
def lkaShape (dim : Nat) (s : Shape4) : Option Shape4 :=
  (conv2dShape ⟨dim, dim, 5, 1, 2, 1, dim⟩ s).bind fun s1 =>
  (conv2dShape ⟨dim, dim, 7, 1, 9, 3, dim⟩ s1).bind fun s2 =>
  (conv2dShape (pointwiseCfg dim dim) s2).bind fun s3 =>
  elemwiseShape s s3

/-- Shape behaviour of `Attention.forward`, in source order: rearrange the
input channel-to-space, convolve `c→c` (kernel `ks`, pad `ks//2`), rearrange
back, average with the pointwise projection of the original input, activate,
gate (`LKA`), second pointwise projection, add the shortcut. -/
def attnShape (A : AttnCfg) (s : Shape4) : Option Shape4 :=
  (rearrangeCSShape A.h A.w s).bind fun s1 =>
  (conv2dShape ⟨A.c, A.c, A.ks, 1, A.ks / 2, 1, 1⟩ s1).bind fun s2 =>
  (rearrangeSCShape A.h A.w s2).bind fun s3 =>
  (conv2dShape (pointwiseCfg A.dModel A.dModel) s).bind fun s4 =>
  (elemwiseShape s4 s3).bind fun s5 =>
  (lkaShape A.dModel s5).bind fun s6 =>
  (conv2dShape (pointwiseCfg A.dModel A.dModel) s6).bind fun s7 =>
  elemwiseShape s7 s

/-- Shape behaviour of `Mlp.forward`: `fc1`; for stage index > 1 a
batch-normalization (+ activation) follows `fc1`, otherwise it is skipped;
then the depthwise unit, batch-normalization (+ activation), `fc2`, dropout. -/
def mlpShape (M : MlpCfg) (s : Shape4) : Option Shape4 :=
  (conv2dShape (pointwiseCfg M.inF M.hidden) s).bind fun s1 =>
  (if 1 < M.layer then bnShape M.hidden s1 else some s1).bind fun s1' =>
  (dwConvShape ⟨M.hidden, M.dwks⟩ s1').bind fun s2 =>
  (bnShape M.hidden s2).bind fun s3 =>
  conv2dShape (pointwiseCfg M.hidden M.outF) s3

/-- Static data of a constructed `Block(dim, mlp_ratio, layer)`. -/
structure BlockCfg where
  dim : Nat
  attn : AttnCfg
  mlp : MlpCfg
deriving DecidableEq, Repr

/-- `Block.__init__`: builds its `Attention` and `Mlp`
(`mlp_hidden_dim = dim * mlp_ratio`). -/
def blockInit (dim ratioI layer : Nat) : Option BlockCfg :=
  (attentionInit dim layer).bind fun a =>
  (mlpInit dim (dim * ratioI) dim layer).bind fun m =>
  some ⟨dim, a, m⟩

/-- Shape behaviour of `Block.forward`:
`x + drop_path(scale1 ⊙ attn(bn1 x))`, then
`x + drop_path(scale2 ⊙ mlp(bn2 x))`; the layer-scale vectors broadcast as
`(1, dim, 1, 1)`, `drop_path` is shape-preserving. -/
def blockShape (Bk : BlockCfg) (s : Shape4) : Option Shape4 :=
  (bnShape Bk.dim s).bind fun n1 =>
  (attnShape Bk.attn n1).bind fun a =>
  (elemwiseShape ⟨1, Bk.dim, 1, 1⟩ a).bind fun a1 =>
  (elemwiseShape s a1).bind fun s1 =>
  (bnShape Bk.dim s1).bind fun n2 =>
  (mlpShape Bk.mlp n2).bind fun m =>
  (elemwiseShape ⟨1, Bk.dim, 1, 1⟩ m).bind fun m1 =>
  elemwiseShape s1 m1

/-- Static data of a constructed `OverlapPatchEmbed`: stage 0 is structurally
different from stages 1–3. -/
inductive PECfg where
  | stage0 (img patch stride inC embedDim : Nat)
  | later (img stride c cout h w ks : Nat)
deriving DecidableEq, Repr

/-- `OverlapPatchEmbed.__init__`: stage 0 stores two convolutions and a
positional bias of spatial shape (2,2); stages 1–3 consult `peSplit`. -/
def peInit (img patch stride inC embedDim layer : Nat) : Option PECfg :=
  if layer = 0 then some (.stage0 img patch stride inC embedDim)
  else (peSplit layer).map fun t =>
    .later img stride t.1 t.2.1 t.2.2.1 t.2.2.2.1 t.2.2.2.2

/-- Shape behaviour of `OverlapPatchEmbed.forward`.

Stage 0: `proj1` (stride-2 convolution) + positional bias tiled by
`repeat(1,1,H,W)` with `H = W = img // (2·stride)`, normalize, activate,
`proj2` (3×3), normalize, then the space-to-channel rearrange with factors
(2,2).

Stages 1–3: channel-to-space rearrange with the stage's `(h,w)`, convolution
`c→cout` (kernel `ks`, pad `ks//2`), positional bias of spatial shape
`(h·2, w·2)` tiled by `repeat(1,1,H,W)` with `H = W = img // stride`,
normalize, then the space-to-channel rearrange with the doubled factors
`(h·2, w·2)`. -/
def peShape (P : PECfg) (s : Shape4) : Option Shape4 :=
  match P with
  | .stage0 img patch stride inC embedDim =>
    (conv2dShape ⟨inC, embedDim, patch, stride, patch / 2, 1, 1⟩ s).bind fun s1 =>
    (elemwiseShape s1 ⟨1, embedDim, 2 * (img / (2 * stride)), 2 * (img / (2 * stride))⟩).bind fun s2 =>
    (bnShape embedDim s2).bind fun s3 =>
    (conv2dShape ⟨embedDim, embedDim / 4, 3, 1, 1, 1, 1⟩ s3).bind fun s4 =>
    (bnShape (embedDim / 4) s4).bind fun s5 =>
    rearrangeSCShape 2 2 s5
  | .later img stride c cout h w ks =>
    (rearrangeCSShape h w s).bind fun s1 =>
    (conv2dShape ⟨c, cout, ks, 1, ks / 2, 1, 1⟩ s1).bind fun s2 =>
    (elemwiseShape s2 ⟨1, cout, h * 2 * (img / stride), w * 2 * (img / stride)⟩).bind fun s3 =>
    (bnShape cout s3).bind fun s4 =>
    rearrangeSCShape (h * 2) (w * 2) s4

/-- Shape of `x.flatten(2).transpose(1, 2)`. -/
def flattenTrShape (s : Shape4) : Shape3 := ⟨s.b, s.h * s.w, s.c⟩

/-- Shape behaviour of `nn.LayerNorm(dim)` on a token tensor: identity, but
the trailing dimension must equal `dim`. -/
def lnShape (dim : Nat) (t : Shape3) : Option Shape3 :=
  if t.c = dim then some t else none

/-- Shape of `x.reshape(B, H, W, -1).permute(0, 3, 1, 2)`: the element count
must be divisible by `B·H·W`, the remaining factor becomes the channel. -/
def reshapePermuteShape (B H W : Nat) (t : Shape3) : Option Shape4 :=
  if 0 < B * H * W ∧ t.b * t.n * t.c % (B * H * W) = 0 then
    some ⟨B, t.b * t.n * t.c / (B * H * W), H, W⟩
  else none

/-- `n`-fold composition of a fallible shape transformer (a stack of blocks). -/
def iterShape : Nat → (Shape4 → Option Shape4) → Shape4 → Option Shape4
  | 0, _, s => some s
  | n + 1, f, s => (f s).bind (iterShape n f)

/-! ### The backbone (shape level) -/

/-- Constructor arguments of `VAN` (the backbone). -/
structure VANCfg where
  imgSize : Nat
  inChans : Nat
  numClasses : Nat
  embedDims : List Nat
  ratios : List Nat
  depths : List Nat
  numStages : Nat
deriving DecidableEq, Repr

/-- Embedding width of stage `i`. -/
def Ei (cfg : VANCfg) (i : Nat) : Nat := cfg.embedDims.getD i 0

/-- MLP ratio of stage `i`. -/
def Ri (cfg : VANCfg) (i : Nat) : Nat := cfg.ratios.getD i 0

/-- Block depth of stage `i`. -/
def Di (cfg : VANCfg) (i : Nat) : Nat := cfg.depths.getD i 0

/-- Patch-embedding image size of stage `i`:
`img_size if i == 0 else img_size // (2 ** (i + 1))`. -/
def stageImg (cfg : VANCfg) (i : Nat) : Nat :=
  if i = 0 then cfg.imgSize else cfg.imgSize / 2 ^ (i + 1)

/-- Patch-embedding input channels of stage `i`:
`in_chans if i == 0 else embed_dims[i - 1]`. -/
def stageInC (cfg : VANCfg) (i : Nat) : Nat :=
  if i = 0 then cfg.inChans else Ei cfg (i - 1)

/-- One stage of `VAN.forward_features`: patch embedding (returning the
post-embedding spatial extents `H, W`), the block stack, flatten to tokens,
stage layer-normalization. -/
def vanStageShape (cfg : VANCfg) (i : Nat) (s : Shape4) :
    Option (Shape3 × Nat × Nat) :=
  (peInit (stageImg cfg i) (if i = 0 then 5 else 3) 2 (stageInC cfg i) (Ei cfg i) i).bind fun P =>
  (peShape P s).bind fun s1 =>
  (blockInit (Ei cfg i) (Ri cfg i) i).bind fun Bk =>
  (iterShape (Di cfg i) (blockShape Bk) s1).bind fun s2 =>
  (lnShape (Ei cfg i) (flattenTrShape s2)).bind fun t =>
  some (t, s1.h, s1.w)

/-- The stage loop of `VAN.forward_features`: every stage except the last is
followed by the reshape back to a spatial map. -/
def vanStagesShape (cfg : VANCfg) (B : Nat) : List Nat → Shape4 → Option Shape3
  | [], _ => none
  | [i], s => (vanStageShape cfg i s).map (·.1)
  | i :: is, s =>
    (vanStageShape cfg i s).bind fun r =>
    (reshapePermuteShape B r.2.1 r.2.2 r.1).bind fun s' =>
    vanStagesShape cfg B is s'

/-- Shape behaviour of `VAN.forward`: `forward_features` (stage loop followed
by `mean(dim=1)` over tokens) then the classification head
(`nn.Linear(embed_dims[3], num_classes)` when `num_classes > 0`, otherwise
the identity). -/
def vanForwardShape (cfg : VANCfg) (s : Shape4) : Option (Nat × Nat) :=
  (vanStagesShape cfg s.b (List.range cfg.numStages) s).bind fun t =>
  if 0 < cfg.numClasses then
    (if t.c = Ei cfg 3 then some (t.b, cfg.numClasses) else none)
  else some (t.b, t.c)

/-- The `van_tiny` preset: `VAN(embed_dims=[32,64,160,256],
mlp_ratios=[8,8,4,4], depths=[3,3,5,2])` with the constructor defaults
`img_size=224, in_chans=3, num_classes=1000, num_stages=4`. -/
def vanTinyCfg : VANCfg :=
  ⟨224, 3, 1000, [32, 64, 160, 256], [8, 8, 4, 4], [3, 3, 5, 2], 4⟩

/-- The `van_small` preset: `VAN(embed_dims=[64,128,320,512],
mlp_ratios=[8,8,4,4], depths=[2,2,4,2])` with the constructor defaults. -/
def vanSmallCfg : VANCfg :=
  ⟨224, 3, 1000, [64, 128, 320, 512], [8, 8, 4, 4], [2, 2, 4, 2], 4⟩

/-! ## Value semantics

Tensors are total functions from (unbounded) indices to `ℚ`; the shape
semantics above tracks which index region is meaningful.  GELU and the
square root used by layer normalization are numeric library primitives; the
model takes them as explicit (deterministic) function parameters.  Batch
normalization is modelled in inference mode: a per-channel affine map built
from the running statistics (`inv` is the precomputed `1/sqrt(var+eps)`). -/

/-- A 4-d tensor `(batch, channel, height, width)` as a value table. -/
def T4 : Type := Nat → Nat → Nat → Nat → ℚ

/-- A 3-d token tensor `(batch, tokens, channel)` as a value table. -/
def T3 : Type := Nat → Nat → Nat → ℚ

/-- A 2-d tensor `(batch, features)` as a value table. -/
def T2 : Type := Nat → Nat → ℚ

/-- Elementwise sum of two 4-d tensors. -/
def addT (x y : T4) : T4 := fun b c i j => x b c i j + y b c i j

/-- Elementwise (Hadamard) product of two 4-d tensors. -/
def mulT (x y : T4) : T4 := fun b c i j => x b c i j * y b c i j

/-- Scalar multiple of a 4-d tensor. -/
def smulT (a : ℚ) (x : T4) : T4 := fun b c i j => a * x b c i j

/-- Map a scalar function (e.g. the GELU activation) over a 4-d tensor. -/
def mapT (f : ℚ → ℚ) (x : T4) : T4 := fun b c i j => f (x b c i j)

/-- Per-channel scale `s.unsqueeze(-1).unsqueeze(-1) * x` (the layer-scale
broadcast of `Block.forward`). -/
def scaleMul (s : Nat → ℚ) (x : T4) : T4 := fun b c i j => s c * x b c i j

/-- Learned parameters of an `nn.Conv2d`: `weight[out][inPerGroup][u][v]`
and `bias[out]`. -/
structure ConvW where
  weight : Nat → Nat → Nat → Nat → ℚ
  bias : Nat → ℚ

/-- Value of a 2-d convolution with zero padding, stride, dilation and
groups, on an input whose meaningful spatial region is `H × W`:
`y[b][o][i][j] = bias[o] + Σ_{ci,u,v} w[o][ci][u][v] · x[b][g(o)+ci][i·s+u·d-p][j·s+v·d-p]`
where out-of-range taps read 0 and `g(o)` is the first input channel of
`o`'s group. -/
def conv2d (cfg : Conv2dCfg) (p : ConvW) (H W : Nat) (x : T4) : T4 :=
  fun b o i j =>
    p.bias o +
      ∑ ci ∈ Finset.range (cfg.inC / cfg.groups),
        ∑ u ∈ Finset.range cfg.k,
          ∑ v ∈ Finset.range cfg.k,
            (if cfg.pad ≤ i * cfg.stride + u * cfg.dil ∧
                i * cfg.stride + u * cfg.dil < H + cfg.pad ∧
                cfg.pad ≤ j * cfg.stride + v * cfg.dil ∧
                j * cfg.stride + v * cfg.dil < W + cfg.pad then
              p.weight o ci u v *
                x b (o / (cfg.outC / cfg.groups) * (cfg.inC / cfg.groups) + ci)
                  (i * cfg.stride + u * cfg.dil - cfg.pad)
                  (j * cfg.stride + v * cfg.dil - cfg.pad)
            else 0)

/-- Learned statistics and affine parameters of an `nn.BatchNorm2d`, with
`inv c = 1/sqrt(running_var[c] + eps)` precomputed. -/
structure BNP where
  gamma : Nat → ℚ
  beta : Nat → ℚ
  mu : Nat → ℚ
  inv : Nat → ℚ

/-- Inference-mode value of `nn.BatchNorm2d`: the per-channel affine map
`γ_c · (x - μ_c) · inv_c + β_c`. -/
def bnEval (p : BNP) (x : T4) : T4 :=
  fun b c i j => p.gamma c * ((x b c i j - p.mu c) * p.inv c) + p.beta c

/-- Value of `rearrange(x, 'b (c p1 p2) n1 n2 -> b c (n1 p1) (n2 p2)', p1=h, p2=w)`:
output position `(b, c, i, j)` reads input channel `c·h·w + (i%h)·w + (j%w)`
at spatial position `(i/h, j/w)`. -/
def rearrangeCS (h w : Nat) (x : T4) : T4 :=
  fun b c i j => x b (c * (h * w) + i % h * w + j % w) (i / h) (j / w)

/-- Value of `rearrange(x, 'b c (n1 p1) (n2 p2) -> b (c p1 p2) n1 n2', p1=h, p2=w)`:
output channel `ch` at `(n1, n2)` reads input channel `ch/(h·w)` at spatial
position `(n1·h + (ch%(h·w))/w, n2·w + ch%w)`. -/
def rearrangeSC (h w : Nat) (x : T4) : T4 :=
  fun b c i j => x b (c / (h * w)) (i * h + c % (h * w) / w) (j * w + c % w)

/-- Per-element random draws consumed by one `Block`: a keep/drop decision
per sample for each of the two `DropPath` applications, and an elementwise
mask for the `Mlp` dropout. -/
structure BlockRng where
  keep1 : Nat → Bool
  keep2 : Nat → Bool
  mask : Nat → Nat → Nat → Nat → Bool

/-- Value of `nn.Dropout(p)`: in training mode, zeroes the masked elements
and rescales the rest by `1/(1-p)`; in evaluation mode it is the identity. -/
def dropout (p : ℚ) (training : Bool) (mask : Nat → Nat → Nat → Nat → Bool)
    (x : T4) : T4 :=
  if training then
    fun b c i j => if mask b c i j then 0 else x b c i j * (1 - p)⁻¹
  else x

/-- Value of `DropPath(p)` (stochastic depth): in training mode, zeroes the
whole branch for dropped samples and rescales kept samples by `1/(1-p)`; in
evaluation mode it is the identity. -/
def dropPathF (p : ℚ) (training : Bool) (keep : Nat → Bool) (x : T4) : T4 :=
  if training then
    fun b c i j => if keep b then x b c i j * (1 - p)⁻¹ else 0
  else x

/-- `Block.__init__` line:
`self.drop_path = DropPath(drop_path) if drop_path > 0. else nn.Identity()`. -/
def blockDropPath (p : ℚ) (training : Bool) (keep : Nat → Bool) (x : T4) : T4 :=
  if 0 < p then dropPathF p training keep x else x

/-- Learned parameters of an `LKA(dim)` unit. -/
structure LKAW where
  conv0 : ConvW
  convSp : ConvW
  conv1 : ConvW

/-- Value of `LKA.forward`: save `u = x`, run the depthwise 5×5 (pad 2,
groups=dim), the depthwise 7×7 with dilation 3 (pad 9, groups=dim), the
pointwise 1×1, and return `u * attn`. -/
def lkaForward (dim : Nat) (p : LKAW) (H W : Nat) (x : T4) : T4 :=
  let u := x
  let attn := conv2d ⟨dim, dim, 5, 1, 2, 1, dim⟩ p.conv0 H W x
  let attn := conv2d ⟨dim, dim, 7, 1, 9, 3, dim⟩ p.convSp H W attn
  let attn := conv2d (pointwiseCfg dim dim) p.conv1 H W attn
  mulT u attn

/-- Learned parameters of an `Attention(d_model, layer)` unit. -/
structure AttnW where
  proj1 : ConvW
  proj1c : ConvW
  proj2 : ConvW
  sgu : LKAW

/-- Value of `Attention.forward` (stage split `(c,h,w,ks)`): save the
shortcut, rearrange channel-to-space, convolve `c→c` (kernel `ks`, pad
`ks//2`) at the retiled resolution `(H·h, W·w)`, rearrange back, take
`0.5 · (proj_1 x + x_)`, activate, gate with `LKA`, apply the single second
pointwise projection, and add the shortcut. -/
def attnForward (dModel c h w ks : Nat) (gelu : ℚ → ℚ) (p : AttnW)
    (H W : Nat) (x : T4) : T4 :=
  let shortcut := x
  let x1 := rearrangeCS h w x
  let x2 := conv2d ⟨c, c, ks, 1, ks / 2, 1, 1⟩ p.proj1c (H * h) (W * w) x1
  let x3 := rearrangeSC h w x2
  let x4 := smulT (1 / 2) (addT (conv2d (pointwiseCfg dModel dModel) p.proj1 H W x) x3)
  let x5 := mapT gelu x4
  let x6 := lkaForward dModel p.sgu H W x5
  let x7 := conv2d (pointwiseCfg dModel dModel) p.proj2 H W x6
  addT x7 shortcut

/-- Learned parameters of an `Mlp` unit. -/
structure MlpW where
  fc1 : ConvW
  dw : ConvW
  fc2 : ConvW
  norm1 : BNP
  norm2 : BNP

/-- Value of `Mlp.forward`: `fc1`; when the stage index exceeds 1 a
batch-normalization and activation follow `fc1` (stages 0 and 1 feed `fc1`
straight into the depthwise unit); depthwise convolution (kernel `dk`),
batch-normalization, activation, `fc2`, dropout. -/
def mlpForward (inF hidden outF layer dk : Nat) (gelu : ℚ → ℚ) (drop : ℚ)
    (training : Bool) (mask : Nat → Nat → Nat → Nat → Bool) (p : MlpW)
    (H W : Nat) (x : T4) : T4 :=
  let x1 :=
    if 1 < layer then
      mapT gelu (bnEval p.norm1 (conv2d (pointwiseCfg inF hidden) p.fc1 H W x))
    else
      conv2d (pointwiseCfg inF hidden) p.fc1 H W x
  let x2 := mapT gelu (bnEval p.norm2
    (conv2d ⟨hidden, hidden, dk, 1, dk / 2, 1, hidden⟩ p.dw H W x1))
  let x3 := conv2d (pointwiseCfg hidden outF) p.fc2 H W x2
  dropout drop training mask x3

/-- Learned parameters of a `Block`. -/
structure BlockW where
  norm1 : BNP
  norm2 : BNP
  attn : AttnW
  mlp : MlpW
  scale1 : Nat → ℚ
  scale2 : Nat → ℚ
  dpRate : ℚ

/-- Per-stage static numbers threaded through a block stack: embedding
width, hidden width, attention split `(c,h,w,ks)`, depthwise kernel and
stage index. -/
structure StageArgs where
  dim : Nat
  hidden : Nat
  c : Nat
  h : Nat
  w : Nat
  ks : Nat
  dk : Nat
  layer : Nat

/-- Deterministic numeric primitives and scalar hyperparameters shared by
the whole forward pass. -/
structure Ctx where
  gelu : ℚ → ℚ
  sqrt : ℚ → ℚ
  drop : ℚ
  lnEps : ℚ
  training : Bool

/-- Value of `Block.forward`:
`x + drop_path(scale1 ⊙ attn(bn1 x))` then `x + drop_path(scale2 ⊙ mlp(bn2 x))`. -/
def blockForward (A : StageArgs) (ctx : Ctx) (r : BlockRng) (p : BlockW)
    (H W : Nat) (x : T4) : T4 :=
  let a := attnForward A.dim A.c A.h A.w A.ks ctx.gelu p.attn H W (bnEval p.norm1 x)
  let x1 := addT x (blockDropPath p.dpRate ctx.training r.keep1 (scaleMul p.scale1 a))
  let m := mlpForward A.dim A.hidden A.dim A.layer A.dk ctx.gelu ctx.drop
    ctx.training r.mask p.mlp H W (bnEval p.norm2 x1)
  addT x1 (blockDropPath p.dpRate ctx.training r.keep2 (scaleMul p.scale2 m))

/-- Run a stage's block stack in order; block `i` consumes random draws
`rng i`. -/
def runBlocks (A : StageArgs) (ctx : Ctx) (rng : Nat → BlockRng)
    (H W : Nat) : List BlockW → Nat → T4 → T4
  | [], _, x => x
  | p :: ps, i, x =>
    runBlocks A ctx rng H W ps (i + 1) (blockForward A ctx (rng i) p H W x)

/-- Learned parameters of the stage-0 `OverlapPatchEmbed`; `pos c i j` is
the positional bias (channel, 2, 2). -/
structure PE0W where
  proj1 : ConvW
  proj2 : ConvW
  norm1 : BNP
  norm2 : BNP
  pos : Nat → Nat → Nat → ℚ

/-- Learned parameters of a stage-1..3 `OverlapPatchEmbed`; `pos c i j` is
the positional bias (channel, h·2, w·2). -/
structure PENW where
  proj2 : ConvW
  norm2 : BNP
  pos : Nat → Nat → Nat → ℚ

/-- Total (error-free regime) version of `convOutDim`. -/
def convOut (n k stride pad dil : Nat) : Nat :=
  (n + 2 * pad - (dil * (k - 1) + 1)) / stride + 1

/-- Value of the stage-0 `OverlapPatchEmbed.forward`: stride-`stride`
convolution, positional bias tiled by `repeat` (index arithmetic: modulo the
bias extent 2), normalize, activate, 3×3 convolution, normalize, then the
space-to-channel rearrange with factors (2,2); returns the tensor with its
output spatial extents. -/
def pe0Forward (patch stride inC embedDim : Nat) (ctx : Ctx) (p : PE0W)
    (Hin Win : Nat) (x : T4) : T4 × Nat × Nat :=
  let H1 := convOut Hin patch stride (patch / 2) 1
  let W1 := convOut Win patch stride (patch / 2) 1
  let y := conv2d ⟨inC, embedDim, patch, stride, patch / 2, 1, 1⟩ p.proj1 Hin Win x
  let y := addT y (fun _ c i j => p.pos c (i % 2) (j % 2))
  let y := mapT ctx.gelu (bnEval p.norm1 y)
  let y := bnEval p.norm2 (conv2d ⟨embedDim, embedDim / 4, 3, 1, 1, 1, 1⟩ p.proj2 H1 W1 y)
  (rearrangeSC 2 2 y, H1 / 2, W1 / 2)

/-- Value of a stage-1..3 `OverlapPatchEmbed.forward` (stage split
`(c,cout,h,w,ks)`): channel-to-space rearrange, convolution `c→cout` at the
retiled resolution, positional bias tiled by `repeat` (modulo its extent
`(h·2, w·2)`), normalize, then the space-to-channel rearrange with the
doubled factors `(h·2, w·2)`. -/
def peNForward (c cout h w ks : Nat) (p : PENW) (Hin Win : Nat) (x : T4) :
    T4 × Nat × Nat :=
  let y := rearrangeCS h w x
  let y := conv2d ⟨c, cout, ks, 1, ks / 2, 1, 1⟩ p.proj2 (Hin * h) (Win * w) y
  let y := addT y (fun _ ch i j => p.pos ch (i % (h * 2)) (j % (w * 2)))
  let y := bnEval p.norm2 y
  (rearrangeSC (h * 2) (w * 2) y, Hin * h / (h * 2), Win * w / (w * 2))

/-- Value of `x.flatten(2).transpose(1, 2)` on a map of width `W`. -/
def flattenTr (W : Nat) (x : T4) : T3 := fun b n c => x b c (n / W) (n % W)

/-- Value of `nn.LayerNorm(dim)` over the trailing channel axis of a token
tensor (biased variance, `eps` inside the square root). -/
def layerNormT (dim : Nat) (sqrtFn : ℚ → ℚ) (eps : ℚ) (g bt : Nat → ℚ)
    (t : T3) : T3 :=
  fun b n c =>
    let m := (∑ c' ∈ Finset.range dim, t b n c') / dim
    let v := (∑ c' ∈ Finset.range dim, (t b n c' - m) ^ 2) / dim
    g c * ((t b n c - m) / sqrtFn (v + eps)) + bt c

/-- Value of `x.reshape(B, H, W, -1).permute(0, 3, 1, 2)` on a token tensor
coming from a `H × W` map. -/
def reshapePermute (W : Nat) (t : T3) : T4 := fun b c i j => t b (i * W + j) c

/-- Value of `x.mean(dim=1)` over `N` tokens. -/
def meanTokens (N : Nat) (t : T3) : T2 := fun b c => (∑ n ∈ Finset.range N, t b n c) / N

/-- Value of `nn.Linear(inF, _)` on a `(batch, features)` tensor. -/
def linearT (inF : Nat) (wt : Nat → Nat → ℚ) (bs : Nat → ℚ) (t : T2) : T2 :=
  fun b k => bs k + ∑ c ∈ Finset.range inF, wt k c * t b c

/-- All learned parameters of a `VAN` backbone. -/
structure VANW where
  pe0 : PE0W
  pe1 : PENW
  pe2 : PENW
  pe3 : PENW
  blocks0 : List BlockW
  blocks1 : List BlockW
  blocks2 : List BlockW
  blocks3 : List BlockW
  lnG0 : Nat → ℚ
  lnB0 : Nat → ℚ
  lnG1 : Nat → ℚ
  lnB1 : Nat → ℚ
  lnG2 : Nat → ℚ
  lnB2 : Nat → ℚ
  lnG3 : Nat → ℚ
  lnB3 : Nat → ℚ
  headW : Nat → Nat → ℚ
  headB : Nat → ℚ

/-- Random draws for a whole forward call: one stream of block draws per
stage. -/
structure VANRng where
  r0 : Nat → BlockRng
  r1 : Nat → BlockRng
  r2 : Nat → BlockRng
  r3 : Nat → BlockRng

/-- One stage of `VAN.forward_features` at value level: patch embedding,
block stack, flatten to tokens, stage layer normalization; returns the
tokens together with the stage's spatial extents. -/
def vanStageValue (cfg : VANCfg) (i : Nat) (A : StageArgs) (ctx : Ctx)
    (rng : Nat → BlockRng) (blocks : List BlockW) (g bt : Nat → ℚ)
    (pe : T4 → T4 × Nat × Nat) (x : T4) : T3 × Nat × Nat :=
  let r := pe x
  let y := runBlocks A ctx rng r.2.1 r.2.2 blocks 0 r.1
  (layerNormT (Ei cfg i) ctx.sqrt ctx.lnEps g bt (flattenTr r.2.2 y), r.2.1, r.2.2)

/-- Stage arguments of stage `i`: attention split and depthwise kernel read
from the fixed tables (`getD` defaults are never reached for `i < 4`). -/
def stageArgs (cfg : VANCfg) (i : Nat) : StageArgs :=
  let t := (attnSplit i).getD (0, 0, 0, 0)
  ⟨Ei cfg i, Ei cfg i * Ri cfg i, t.1, t.2.1, t.2.2.1, t.2.2.2, (dwKs i).getD 0, i⟩

/-- Value of `VAN.forward_features` for a four-stage backbone, followed by
the token mean. -/
def vanFeaturesValue (cfg : VANCfg) (Wt : VANW) (ctx : Ctx) (rng : VANRng)
    (x : T4) : T2 :=
  let s0 := vanStageValue cfg 0 (stageArgs cfg 0) ctx rng.r0 Wt.blocks0 Wt.lnG0 Wt.lnB0
    (pe0Forward 5 2 cfg.inChans (Ei cfg 0) ctx Wt.pe0 cfg.imgSize cfg.imgSize) x
  let p1 := (peSplit 1).getD (0, 0, 0, 0, 0)
  let s1 := vanStageValue cfg 1 (stageArgs cfg 1) ctx rng.r1 Wt.blocks1 Wt.lnG1 Wt.lnB1
    (peNForward p1.1 p1.2.1 p1.2.2.1 p1.2.2.2.1 p1.2.2.2.2 Wt.pe1 s0.2.1 s0.2.2)
    (reshapePermute s0.2.2 s0.1)
  let p2 := (peSplit 2).getD (0, 0, 0, 0, 0)
  let s2 := vanStageValue cfg 2 (stageArgs cfg 2) ctx rng.r2 Wt.blocks2 Wt.lnG2 Wt.lnB2
    (peNForward p2.1 p2.2.1 p2.2.2.1 p2.2.2.2.1 p2.2.2.2.2 Wt.pe2 s1.2.1 s1.2.2)
    (reshapePermute s1.2.2 s1.1)
  let p3 := (peSplit 3).getD (0, 0, 0, 0, 0)
  let s3 := vanStageValue cfg 3 (stageArgs cfg 3) ctx rng.r3 Wt.blocks3 Wt.lnG3 Wt.lnB3
    (peNForward p3.1 p3.2.1 p3.2.2.1 p3.2.2.2.1 p3.2.2.2.2 Wt.pe3 s2.2.1 s2.2.2)
    (reshapePermute s2.2.2 s2.1)
  meanTokens (s3.2.1 * s3.2.2) s3.1

/-- Value of `VAN.forward`: features then the classification head
(`nn.Linear(embed_dims[3], num_classes)` when `num_classes > 0`, otherwise
the identity). -/
def vanForwardValue (cfg : VANCfg) (Wt : VANW) (ctx : Ctx) (rng : VANRng)
    (x : T4) : T2 :=
  let f := vanFeaturesValue cfg Wt ctx rng x
  if 0 < cfg.numClasses then linearT (Ei cfg 3) Wt.headW Wt.headB f else f

/-! ## Attribute-level model of `VAN.reset_classifier`

`VAN.__init__` assigns `num_classes`, the stage modules and `head`; no
constructor path ever assigns an attribute `embed_dim`.  `reset_classifier`
evaluates `nn.Linear(self.embed_dim, num_classes) if num_classes > 0 else
nn.Identity()`, so the attribute is only read on the positive branch. -/

/-- The classification head attribute: a linear layer or the identity. -/
inductive PyHead where
  | linear (inF outF : Nat)
  | identity
deriving DecidableEq, Repr

/-- A Python attribute error (reading an attribute that was never set). -/
inductive PyErr where
  | attributeError
deriving DecidableEq, Repr

/-- The attributes of a `VAN` instance that `reset_classifier` touches. -/
structure VANAttrs where
  numClasses : Int
  embedDim : Option Nat
  head : PyHead
deriving DecidableEq, Repr

/-- Attribute assignments performed by `VAN.__init__` (default `flag=False`):
`num_classes` is stored, `head` is `nn.Linear(embed_dims[3], num_classes)`
when `num_classes > 0` else the identity, and `embed_dim` is never set. -/
def vanInitAttrs (cfg : VANCfg) : VANAttrs :=
  ⟨(cfg.numClasses : Int), none,
    if 0 < cfg.numClasses then .linear (Ei cfg 3) cfg.numClasses else .identity⟩

/-- `VAN.reset_classifier(num_classes)`: rebuilds `head` as
`nn.Linear(self.embed_dim, num_classes) if num_classes > 0 else nn.Identity()`;
reading `self.embed_dim` when it was never assigned raises `AttributeError`. -/
def resetClassifier (s : VANAttrs) (numClasses : Int) : Except PyErr VANAttrs :=
  if 0 < numClasses then
    match s.embedDim with
    | some d => .ok ⟨numClasses, s.embedDim, .linear d numClasses.toNat⟩
    | none => .error .attributeError
  else .ok ⟨numClasses, s.embedDim, .identity⟩

/-- A concrete sample tensor used to instantiate universally quantified
statements. -/
def sampleT4 : T4 := fun b c i j => (b : ℚ) + 2 * c + 3 * i + 5 * j

/-! ## Helper lemmas -/

theorem obind_some (a : α) (f : α → Option β) : (some a).bind f = f a := rfl

theorem obind_none (f : α → Option β) : (none : Option α).bind f = none := rfl

theorem t4congr (x : T4) (b i1 i2 i3 j1 j2 j3 : Nat)
    (h1 : i1 = j1) (h2 : i2 = j2) (h3 : i3 = j3) :
    x b i1 i2 i3 = x b j1 j2 j3 := by
  rw [h1, h2, h3]

theorem broadcastDim_self (a : Nat) : broadcastDim a a = some a := by
  unfold broadcastDim
  rw [if_pos rfl]

theorem broadcastDim_one_right (a : Nat) : broadcastDim a 1 = some a := by
  unfold broadcastDim
  split_ifs with h1 h2
  · rfl
  · rfl
  · exact absurd rfl h2

theorem elemwiseShape_self (s : Shape4) : elemwiseShape s s = some s := by
  unfold elemwiseShape
  rw [broadcastDim_self, obind_some, broadcastDim_self, obind_some,
    broadcastDim_self, obind_some, broadcastDim_self, obind_some]

theorem elemwiseShape_bias (B C H W : Nat) :
    elemwiseShape ⟨B, C, H, W⟩ ⟨1, C, H, W⟩ = some ⟨B, C, H, W⟩ := by
  unfold elemwiseShape
  dsimp only
  rw [broadcastDim_one_right, obind_some, broadcastDim_self, obind_some,
    broadcastDim_self, obind_some, broadcastDim_self, obind_some]

theorem bnShape_some (f B H W : Nat) :
    bnShape f ⟨B, f, H, W⟩ = some ⟨B, f, H, W⟩ := by
  unfold bnShape
  dsimp only
  rw [if_pos rfl]

theorem rearrangeCS_some (h w B C H W : Nat) (h0 : 0 < h * w)
    (hd : C % (h * w) = 0) :
    rearrangeCSShape h w ⟨B, C, H, W⟩ = some ⟨B, C / (h * w), H * h, W * w⟩ := by
  unfold rearrangeCSShape
  dsimp only
  rw [if_pos ⟨h0, hd⟩]

theorem rearrangeSC_some (h w B C H W : Nat) (hh : 0 < h) (hw : 0 < w)
    (hmH : H % h = 0) (hmW : W % w = 0) :
    rearrangeSCShape h w ⟨B, C, H, W⟩ = some ⟨B, C * (h * w), H / h, W / w⟩ := by
  unfold rearrangeSCShape
  dsimp only
  rw [if_pos ⟨hh, hw, hmH, hmW⟩]

theorem conv2dShape_same (ic oc k pad dil g B H W : Nat)
    (hk : dil * (k - 1) = 2 * pad) (hH : 0 < H) (hW : 0 < W) :
    conv2dShape ⟨ic, oc, k, 1, pad, dil, g⟩ ⟨B, ic, H, W⟩ = some ⟨B, oc, H, W⟩ := by
  unfold conv2dShape convOutDim
  dsimp only
  rw [if_pos rfl, if_pos (by omega), if_pos (by omega), obind_some, obind_some]
  have eH : (H + 2 * pad - (dil * (k - 1) + 1)) / 1 + 1 = H := by omega
  have eW : (W + 2 * pad - (dil * (k - 1) + 1)) / 1 + 1 = W := by omega
  rw [eH, eW]

theorem lkaShape_same (d B H W : Nat) (hH : 0 < H) (hW : 0 < W) :
    lkaShape d ⟨B, d, H, W⟩ = some ⟨B, d, H, W⟩ := by
  unfold lkaShape
  rw [conv2dShape_same d d 5 2 1 d B H W (by omega) hH hW, obind_some,
    conv2dShape_same d d 7 9 3 d B H W (by omega) hH hW, obind_some]
  simp only [pointwiseCfg]
  rw [conv2dShape_same d d 1 0 1 1 B H W (by omega) hH hW, obind_some]
  exact elemwiseShape_self _

theorem attnShape_same (c h w ks B H W : Nat) (hh : 0 < h) (hw : 0 < w)
    (hks : ks % 2 = 1) (hH : 0 < H) (hW : 0 < W) :
    attnShape ⟨c * h * w, c, h, w, ks⟩ ⟨B, c * h * w, H, W⟩ =
      some ⟨B, c * h * w, H, W⟩ := by
  have hhw : 0 < h * w := Nat.mul_pos hh hw
  have hmod : c * h * w % (h * w) = 0 := by
    rw [mul_assoc]
    exact Nat.mul_mod_left _ _
  have hdiv : c * h * w / (h * w) = c := by
    rw [mul_assoc]
    exact Nat.mul_div_cancel _ hhw
  unfold attnShape
  dsimp only
  rw [rearrangeCS_some h w B (c * h * w) H W hhw hmod, obind_some, hdiv,
    conv2dShape_same c c ks (ks / 2) 1 1 B (H * h) (W * w) (by omega)
      (Nat.mul_pos hH hh) (Nat.mul_pos hW hw), obind_some,
    rearrangeSC_some h w B c (H * h) (W * w) hh hw (Nat.mul_mod_left H h)
      (Nat.mul_mod_left W w), obind_some,
    show c * (h * w) = c * h * w from (mul_assoc c h w).symm,
    Nat.mul_div_cancel H hh, Nat.mul_div_cancel W hw]
  simp only [pointwiseCfg]
  rw [conv2dShape_same (c * h * w) (c * h * w) 1 0 1 1 B H W (by omega) hH hW,
    obind_some, elemwiseShape_self, obind_some,
    lkaShape_same (c * h * w) B H W hH hW, obind_some,
    conv2dShape_same (c * h * w) (c * h * w) 1 0 1 1 B H W (by omega) hH hW,
    obind_some]
  exact elemwiseShape_self _

theorem mlpShape_same (C hid layer dk B H W : Nat) (hdk : dk % 2 = 1)
    (hH : 0 < H) (hW : 0 < W) :
    mlpShape ⟨C, hid, C, layer, dk⟩ ⟨B, C, H, W⟩ = some ⟨B, C, H, W⟩ := by
  unfold mlpShape dwConvShape
  dsimp only
  simp only [pointwiseCfg]
  rw [conv2dShape_same C hid 1 0 1 1 B H W (by omega) hH hW, obind_some]
  have hbranch :
      (if 1 < layer then bnShape hid ⟨B, hid, H, W⟩ else some ⟨B, hid, H, W⟩) =
        some ⟨B, hid, H, W⟩ := by
    split
    · exact bnShape_some hid B H W
    · rfl
  rw [hbranch, obind_some,
    conv2dShape_same hid hid dk (dk / 2) 1 hid B H W (by omega) hH hW, obind_some,
    bnShape_some, obind_some]
  exact conv2dShape_same hid C 1 0 1 1 B H W (by omega) hH hW

theorem peNShape_halves (img c cout h w ks n B : Nat) (hh : 0 < h) (hw : 0 < w)
    (hks : ks % 2 = 1) (hn : 0 < n) (himg : img / 2 = n) :
    peShape (.later img 2 c cout h w ks) ⟨B, c * h * w, 2 * n, 2 * n⟩ =
      some ⟨B, cout * (h * 2 * (w * 2)), n, n⟩ := by
  have hhw : 0 < h * w := Nat.mul_pos hh hw
  have hmod : c * h * w % (h * w) = 0 := by
    rw [mul_assoc]
    exact Nat.mul_mod_left _ _
  have hdiv : c * h * w / (h * w) = c := by
    rw [mul_assoc]
    exact Nat.mul_div_cancel _ hhw
  simp only [peShape]
  rw [rearrangeCS_some h w B (c * h * w) (2 * n) (2 * n) hhw hmod, obind_some, hdiv,
    conv2dShape_same c cout ks (ks / 2) 1 1 B (2 * n * h) (2 * n * w) (by omega)
      (Nat.mul_pos (by omega) hh) (Nat.mul_pos (by omega) hw), obind_some, himg,
    show h * 2 * n = 2 * n * h from by ring,
    show w * 2 * n = 2 * n * w from by ring,
    elemwiseShape_bias, obind_some, bnShape_some, obind_some]
  have m1 : 2 * n * h % (h * 2) = 0 := by
    rw [show 2 * n * h = n * (h * 2) from by ring]
    exact Nat.mul_mod_left _ _
  have m2 : 2 * n * w % (w * 2) = 0 := by
    rw [show 2 * n * w = n * (w * 2) from by ring]
    exact Nat.mul_mod_left _ _
  rw [rearrangeSC_some (h * 2) (w * 2) B cout (2 * n * h) (2 * n * w)
    (by omega) (by omega) m1 m2]
  have d1 : 2 * n * h / (h * 2) = n := by
    rw [show 2 * n * h = n * (h * 2) from by ring]
    exact Nat.mul_div_cancel _ (by omega)
  have d2 : 2 * n * w / (w * 2) = n := by
    rw [show 2 * n * w = n * (w * 2) from by ring]
    exact Nat.mul_div_cancel _ (by omega)
  rw [d1, d2]

theorem attnSplit_facts (layer c h w ks : Nat)
    (hsp : attnSplit layer = some (c, h, w, ks)) :
    0 < h ∧ 0 < w ∧ ks % 2 = 1 := by
  rcases layer with _ | _ | _ | _ | l
  · simp only [attnSplit, Option.some.injEq, Prod.mk.injEq] at hsp
    obtain ⟨-, h2, h3, h4⟩ := hsp
    subst h2; subst h3; subst h4
    exact ⟨by decide, by decide, by decide⟩
  · simp only [attnSplit, Option.some.injEq, Prod.mk.injEq] at hsp
    obtain ⟨-, h2, h3, h4⟩ := hsp
    subst h2; subst h3; subst h4
    exact ⟨by decide, by decide, by decide⟩
  · simp only [attnSplit, Option.some.injEq, Prod.mk.injEq] at hsp
    obtain ⟨-, h2, h3, h4⟩ := hsp
    subst h2; subst h3; subst h4
    exact ⟨by decide, by decide, by decide⟩
  · simp only [attnSplit, Option.some.injEq, Prod.mk.injEq] at hsp
    obtain ⟨-, h2, h3, h4⟩ := hsp
    subst h2; subst h3; subst h4
    exact ⟨by decide, by decide, by decide⟩
  · exact Option.noConfusion hsp

theorem peSplit_facts (layer c cout h w ks : Nat)
    (hsp : peSplit layer = some (c, cout, h, w, ks)) :
    0 < h ∧ 0 < w ∧ ks % 2 = 1 := by
  rcases layer with _ | _ | _ | _ | l
  · exact Option.noConfusion hsp
  · simp only [peSplit, Option.some.injEq, Prod.mk.injEq] at hsp
    obtain ⟨-, -, h3, h4, h5⟩ := hsp
    subst h3; subst h4; subst h5
    exact ⟨by decide, by decide, by decide⟩
  · simp only [peSplit, Option.some.injEq, Prod.mk.injEq] at hsp
    obtain ⟨-, -, h3, h4, h5⟩ := hsp
    subst h3; subst h4; subst h5
    exact ⟨by decide, by decide, by decide⟩
  · simp only [peSplit, Option.some.injEq, Prod.mk.injEq] at hsp
    obtain ⟨-, -, h3, h4, h5⟩ := hsp
    subst h3; subst h4; subst h5
    exact ⟨by decide, by decide, by decide⟩
  · exact Option.noConfusion hsp

theorem dropout_eval (p : ℚ) (m : Nat → Nat → Nat → Nat → Bool) (x : T4) :
    dropout p false m x = x := rfl

theorem dropPathF_eval (p : ℚ) (k : Nat → Bool) (x : T4) :
    dropPathF p false k x = x := rfl

theorem blockDropPath_eval (p : ℚ) (k : Nat → Bool) (x : T4) :
    blockDropPath p false k x = x := by
  unfold blockDropPath
  rw [dropPathF_eval]
  exact ite_self x

theorem blockForward_rng (A : StageArgs) (g sq : ℚ → ℚ) (d e : ℚ)
    (r r' : BlockRng) (p : BlockW) (H W : Nat) (x : T4) :
    blockForward A ⟨g, sq, d, e, false⟩ r p H W x =
      blockForward A ⟨g, sq, d, e, false⟩ r' p H W x := by
  simp only [blockForward, mlpForward, blockDropPath_eval, dropout_eval]

theorem runBlocks_rng (A : StageArgs) (g sq : ℚ → ℚ) (d e : ℚ)
    (rng rng' : Nat → BlockRng) (H W : Nat) :
    ∀ (ps : List BlockW) (i : Nat) (x : T4),
      runBlocks A ⟨g, sq, d, e, false⟩ rng H W ps i x =
        runBlocks A ⟨g, sq, d, e, false⟩ rng' H W ps i x := by
  intro ps
  induction ps with
  | nil => intro i x; rfl
  | cons p ps ih =>
    intro i x
    simp only [runBlocks]
    rw [blockForward_rng A g sq d e (rng i) (rng' i) p H W x]
    exact ih (i + 1) _

theorem vanStageValue_rng (cfg : VANCfg) (i : Nat) (A : StageArgs)
    (g sq : ℚ → ℚ) (d e : ℚ) (rng rng' : Nat → BlockRng)
    (blocks : List BlockW) (lg lb : Nat → ℚ) (pe : T4 → T4 × Nat × Nat)
    (x : T4) :
    vanStageValue cfg i A ⟨g, sq, d, e, false⟩ rng blocks lg lb pe x =
      vanStageValue cfg i A ⟨g, sq, d, e, false⟩ rng' blocks lg lb pe x := by
  simp only [vanStageValue]
  rw [runBlocks_rng A g sq d e rng rng' (pe x).2.1 (pe x).2.2 blocks 0 (pe x).1]

/-- Sanity check of the shape semantics: the `van_small` preset maps a
`(2,3,224,224)` input to `(2,1000)` logits. -/
theorem vanSmall_shape_ok :
    vanForwardShape vanSmallCfg ⟨2, 3, 224, 224⟩ = some (2, 1000) := by rfl

/-! ## Claims -/

/-- C1: the `van_tiny` preset does use embedding widths [32,64,160,256] and
depths [3,3,5,2], but a forward call on a `(2,3,224,224)` input does NOT
produce `(2,1000)`: it fails with a shape error (the stage-0 attention's
`proj_1c` convolution expects 16 channels while the rearranged tensor
carries 32/(2·2) = 8), modelled as `none`. -/
theorem claim_C1 :
    vanTinyCfg.embedDims = [32, 64, 160, 256] ∧
    vanTinyCfg.depths = [3, 3, 5, 2] ∧
    vanForwardShape vanTinyCfg ⟨2, 3, 224, 224⟩ = none :=
  ⟨rfl, rfl, by rfl⟩

/-- C2: the three fixed per-stage lookup tables are preserved verbatim, and
a stage index outside the tables has no entry — the lookups and the module
constructors that consult them fail rather than defaulting. -/
theorem claim_C2 :
    (attnSplit 0 = some (16, 2, 2, 1) ∧ attnSplit 1 = some (8, 4, 4, 3) ∧
      attnSplit 2 = some (5, 8, 8, 5) ∧ attnSplit 3 = some (2, 16, 16, 7)) ∧
    (dwKs 0 = some 5 ∧ dwKs 1 = some 5 ∧ dwKs 2 = some 5 ∧ dwKs 3 = some 3) ∧
    (peSplit 1 = some (16, 8, 2, 2, 5) ∧ peSplit 2 = some (8, 5, 4, 4, 7) ∧
      peSplit 3 = some (5, 2, 8, 8, 9)) ∧
    (∀ l, attnSplit (l + 4) = none) ∧
    (∀ l, dwKs (l + 4) = none) ∧
    (peSplit 0 = none ∧ ∀ l, peSplit (l + 4) = none) ∧
    (∀ d l, attentionInit d (l + 4) = none) ∧
    (∀ d l, dwconvInit d (l + 4) = none) ∧
    (∀ img patch stride inC e l, peInit img patch stride inC e (l + 4) = none) :=
  ⟨⟨rfl, rfl, rfl, rfl⟩, ⟨rfl, rfl, rfl, rfl⟩, ⟨rfl, rfl, rfl⟩,
    fun _ => rfl, fun _ => rfl, ⟨rfl, fun _ => rfl⟩,
    fun _ _ => rfl, fun _ _ => rfl, fun _ _ _ _ _ _ => rfl⟩

/-- C3: on an input whose channel count is `c·h·w` for the stage's lookup
tuple, the Mixed Attention Unit computes exactly the pipeline
shortcut-save, rearrange, stage-kernel convolution, inverse rearrange,
`0.5 · (proj₁ x + branch)`, activation, gating unit, a single second
pointwise projection, shortcut add — and preserves the input shape. -/
theorem claim_C3 (layer c h w ks : Nat)
    (hsp : attnSplit layer = some (c, h, w, ks)) :
    (∀ (g : ℚ → ℚ) (p : AttnW) (H W : Nat) (x : T4),
        attnForward (c * h * w) c h w ks g p H W x =
          addT
            (conv2d (pointwiseCfg (c * h * w) (c * h * w)) p.proj2 H W
              (lkaForward (c * h * w) p.sgu H W
                (mapT g
                  (smulT (1 / 2)
                    (addT
                      (conv2d (pointwiseCfg (c * h * w) (c * h * w)) p.proj1 H W x)
                      (rearrangeSC h w
                        (conv2d ⟨c, c, ks, 1, ks / 2, 1, 1⟩ p.proj1c (H * h) (W * w)
                          (rearrangeCS h w x)))))))) x) ∧
    (∀ B H W : Nat, 0 < H → 0 < W →
        attnShape ⟨c * h * w, c, h, w, ks⟩ ⟨B, c * h * w, H, W⟩ =
          some ⟨B, c * h * w, H, W⟩) := by
  obtain ⟨hh, hw, hks⟩ := attnSplit_facts layer c h w ks hsp
  exact ⟨fun g p H W x => rfl,
    fun B H W hH hW => attnShape_same c h w ks B H W hh hw hks hH hW⟩

theorem claim_C3_witness :
    attnShape ⟨64, 16, 2, 2, 1⟩ ⟨1, 64, 4, 4⟩ = some ⟨1, 64, 4, 4⟩ :=
  (claim_C3 0 16 2 2 1 rfl).2 1 4 4 (by decide) (by decide)

/-- C4: a stage-1..3 Overlapping Patch Embedding computes exactly
rearrange-in with the stage's `(h,w)`, `c→cout` convolution, positional
bias tiled by elementwise repeat, normalization, rearrange-out with the
doubled factors `(h·2, w·2)` — so on a `(B, c·h·w, 2n, 2n)` input the
token grid halves to `(n, n)` while the channels become `cout·(2h)·(2w)`. -/
theorem claim_C4 (layer c cout h w ks : Nat)
    (hsp : peSplit layer = some (c, cout, h, w, ks)) :
    (∀ (p : PENW) (Hin Win : Nat) (x : T4),
        peNForward c cout h w ks p Hin Win x =
          (rearrangeSC (h * 2) (w * 2)
              (bnEval p.norm2
                (addT
                  (conv2d ⟨c, cout, ks, 1, ks / 2, 1, 1⟩ p.proj2 (Hin * h) (Win * w)
                    (rearrangeCS h w x))
                  (fun _ ch i j => p.pos ch (i % (h * 2)) (j % (w * 2))))),
            Hin * h / (h * 2), Win * w / (w * 2))) ∧
    (∀ img n B : Nat, img / 2 = n → 0 < n →
        peShape (.later img 2 c cout h w ks) ⟨B, c * h * w, 2 * n, 2 * n⟩ =
          some ⟨B, cout * (h * 2 * (w * 2)), n, n⟩) := by
  obtain ⟨hh, hw, hks⟩ := peSplit_facts layer c cout h w ks hsp
  exact ⟨fun p Hin Win x => rfl,
    fun img n B himg hn => peNShape_halves img c cout h w ks n B hh hw hks hn himg⟩

theorem claim_C4_witness :
    peShape (.later 56 2 16 8 2 2 5) ⟨2, 64, 56, 56⟩ = some ⟨2, 128, 28, 28⟩ :=
  (claim_C4 1 16 8 2 2 5 rfl).2 56 28 2 (by decide) (by decide)

/-- C5: for every stage's `(c,h,w)` split, the channel-to-space rearrange
followed immediately by its inverse reconstructs the input tensor exactly
(elementwise identity). -/
theorem claim_C5 (layer c h w ks : Nat)
    (hsp : attnSplit layer = some (c, h, w, ks)) (x : T4) :
    rearrangeSC h w (rearrangeCS h w x) = x := by
  rcases layer with _ | _ | _ | _ | l
  · simp only [attnSplit, Option.some.injEq, Prod.mk.injEq] at hsp
    obtain ⟨-, h2, h3, -⟩ := hsp
    subst h2; subst h3
    funext b ch n1 n2
    simp only [rearrangeCS, rearrangeSC]
    exact t4congr x b _ _ _ ch n1 n2 (by omega) (by omega) (by omega)
  · simp only [attnSplit, Option.some.injEq, Prod.mk.injEq] at hsp
    obtain ⟨-, h2, h3, -⟩ := hsp
    subst h2; subst h3
    funext b ch n1 n2
    simp only [rearrangeCS, rearrangeSC]
    exact t4congr x b _ _ _ ch n1 n2 (by omega) (by omega) (by omega)
  · simp only [attnSplit, Option.some.injEq, Prod.mk.injEq] at hsp
    obtain ⟨-, h2, h3, -⟩ := hsp
    subst h2; subst h3
    funext b ch n1 n2
    simp only [rearrangeCS, rearrangeSC]
    exact t4congr x b _ _ _ ch n1 n2 (by omega) (by omega) (by omega)
  · simp only [attnSplit, Option.some.injEq, Prod.mk.injEq] at hsp
    obtain ⟨-, h2, h3, -⟩ := hsp
    subst h2; subst h3
    funext b ch n1 n2
    simp only [rearrangeCS, rearrangeSC]
    exact t4congr x b _ _ _ ch n1 n2 (by omega) (by omega) (by omega)
  · exact Option.noConfusion hsp

theorem claim_C5_witness :
    rearrangeSC 2 2 (rearrangeCS 2 2 sampleT4) = sampleT4 :=
  claim_C5 0 16 2 2 1 rfl sampleT4

/-- C6: the Feed-Forward Unit computes `fc1`, then — only when the stage
index exceeds 1 — batch-normalization and activation, then the depthwise
unit, batch-normalization and activation, `fc2`, dropout; and it restores
the input shape `(B,C,H,W)`. -/
theorem claim_C6 (layer dk : Nat) (hdk : dwKs layer = some dk) :
    (∀ (inF hidden outF : Nat) (g : ℚ → ℚ) (drop : ℚ) (training : Bool)
        (mask : Nat → Nat → Nat → Nat → Bool) (p : MlpW) (H W : Nat) (x : T4),
        1 < layer →
          mlpForward inF hidden outF layer dk g drop training mask p H W x =
            dropout drop training mask
              (conv2d (pointwiseCfg hidden outF) p.fc2 H W
                (mapT g (bnEval p.norm2
                  (conv2d ⟨hidden, hidden, dk, 1, dk / 2, 1, hidden⟩ p.dw H W
                    (mapT g (bnEval p.norm1
                      (conv2d (pointwiseCfg inF hidden) p.fc1 H W x)))))))) ∧
    (∀ (inF hidden outF : Nat) (g : ℚ → ℚ) (drop : ℚ) (training : Bool)
        (mask : Nat → Nat → Nat → Nat → Bool) (p : MlpW) (H W : Nat) (x : T4),
        layer ≤ 1 →
          mlpForward inF hidden outF layer dk g drop training mask p H W x =
            dropout drop training mask
              (conv2d (pointwiseCfg hidden outF) p.fc2 H W
                (mapT g (bnEval p.norm2
                  (conv2d ⟨hidden, hidden, dk, 1, dk / 2, 1, hidden⟩ p.dw H W
                    (conv2d (pointwiseCfg inF hidden) p.fc1 H W x)))))) ∧
    (∀ C hid B H W : Nat, 0 < H → 0 < W →
        mlpShape ⟨C, hid, C, layer, dk⟩ ⟨B, C, H, W⟩ = some ⟨B, C, H, W⟩) := by
  have hodd : dk % 2 = 1 := by
    rcases layer with _ | _ | _ | _ | l
    · simp only [dwKs, Option.some.injEq] at hdk; omega
    · simp only [dwKs, Option.some.injEq] at hdk; omega
    · simp only [dwKs, Option.some.injEq] at hdk; omega
    · simp only [dwKs, Option.some.injEq] at hdk; omega
    · exact Option.noConfusion hdk
  refine ⟨?_, ?_, fun C hid B H W hH hW =>
    mlpShape_same C hid layer dk B H W hodd hH hW⟩
  · intro inF hidden outF g drop training mask p H W x hl
    unfold mlpForward
    rw [if_pos hl]
  · intro inF hidden outF g drop training mask p H W x hl
    unfold mlpForward
    rw [if_neg (by omega)]

theorem claim_C6_witness :
    mlpShape ⟨8, 16, 8, 2, 5⟩ ⟨1, 8, 4, 4⟩ = some ⟨1, 8, 4, 4⟩ :=
  (claim_C6 2 5 rfl).2.2 8 16 1 4 4 (by decide) (by decide)

/-- C7 counterexample: at the stage-0 split `(c,h,w) = (16,2,2)` a channel
count of 32 differs from `c·h·w = 64`, yet the rearrange itself succeeds
(32 is divisible by `h·w`), so "the rearrange fails" is false as stated. -/
theorem claim_C7_counterexample :
    32 ≠ 16 * 2 * 2 ∧ rearrangeCSShape 2 2 ⟨1, 32, 4, 4⟩ = some ⟨1, 8, 8, 8⟩ := by
  decide

/-- C7 (amended): on an input whose channel count differs from `c·h·w`,
the Mixed Attention Unit always propagates an error — the rearrange rejects
a channel count not divisible by `h·w`, and otherwise the `c`-channel
convolution rejects the mismatched channel count; the unit never silently
truncates or pads. -/
theorem claim_C7 (layer c h w ks d : Nat)
    (hsp : attnSplit layer = some (c, h, w, ks)) (s : Shape4)
    (hC : s.c ≠ c * h * w) :
    attnShape ⟨d, c, h, w, ks⟩ s = none := by
  obtain ⟨hh, hw, -⟩ := attnSplit_facts layer c h w ks hsp
  obtain ⟨B, C, H, W⟩ := s
  have hC' : C ≠ c * h * w := hC
  unfold attnShape
  by_cases hmod : C % (h * w) = 0
  · rw [rearrangeCS_some h w B C H W (Nat.mul_pos hh hw) hmod, obind_some]
    have hne : C / (h * w) ≠ c := by
      intro hEq
      apply hC'
      calc C = C / (h * w) * (h * w) :=
            (Nat.div_mul_cancel (Nat.dvd_of_mod_eq_zero hmod)).symm
        _ = c * (h * w) := by rw [hEq]
        _ = c * h * w := (mul_assoc c h w).symm
    unfold conv2dShape
    dsimp only
    rw [if_neg hne]
    rfl
  · have hrw : rearrangeCSShape h w ⟨B, C, H, W⟩ = none := by
      unfold rearrangeCSShape
      dsimp only
      rw [if_neg]
      exact fun hcon => hmod hcon.2
    rw [hrw]
    rfl

theorem claim_C7_witness :
    attnShape ⟨64, 16, 2, 2, 1⟩ ⟨1, 32, 4, 4⟩ = none :=
  claim_C7 0 16 2 2 1 64 rfl ⟨1, 32, 4, 4⟩ (by decide)

/-- C8: in evaluation mode dropout and stochastic depth are identities, and
the whole forward pass is independent of the random draws — two calls on
the same input with different draws are equal. -/
theorem claim_C8 :
    (∀ (p : ℚ) (m : Nat → Nat → Nat → Nat → Bool) (x : T4),
        dropout p false m x = x) ∧
    (∀ (p : ℚ) (k : Nat → Bool) (x : T4), dropPathF p false k x = x) ∧
    (∀ (p : ℚ) (k : Nat → Bool) (x : T4), blockDropPath p false k x = x) ∧
    (∀ (cfg : VANCfg) (Wt : VANW) (g sq : ℚ → ℚ) (d e : ℚ) (r r' : VANRng)
        (x : T4),
        vanForwardValue cfg Wt ⟨g, sq, d, e, false⟩ r x =
          vanForwardValue cfg Wt ⟨g, sq, d, e, false⟩ r' x) := by
  refine ⟨dropout_eval, dropPathF_eval, blockDropPath_eval, ?_⟩
  intro cfg Wt g sq d e r r' x
  simp only [vanForwardValue, vanFeaturesValue]
  rw [vanStageValue_rng cfg 0 (stageArgs cfg 0) g sq d e r.r0 r'.r0,
    vanStageValue_rng cfg 1 (stageArgs cfg 1) g sq d e r.r1 r'.r1,
    vanStageValue_rng cfg 2 (stageArgs cfg 2) g sq d e r.r2 r'.r2,
    vanStageValue_rng cfg 3 (stageArgs cfg 3) g sq d e r.r3 r'.r3]

/-- C9: the Gated-Spatial Unit computes exactly `u * attn` where `attn` is
the composition of a depthwise 5×5 convolution (pad 2, groups=C), a
depthwise 7×7 convolution with dilation 3 (pad 9, groups=C) and a pointwise
1×1 convolution, and it preserves the input shape. -/
theorem claim_C9 (dim : Nat) :
    (∀ (p : LKAW) (H W : Nat) (x : T4),
        lkaForward dim p H W x =
          mulT x
            (conv2d (pointwiseCfg dim dim) p.conv1 H W
              (conv2d ⟨dim, dim, 7, 1, 9, 3, dim⟩ p.convSp H W
                (conv2d ⟨dim, dim, 5, 1, 2, 1, dim⟩ p.conv0 H W x)))) ∧
    (∀ B H W : Nat, 0 < H → 0 < W →
        lkaShape dim ⟨B, dim, H, W⟩ = some ⟨B, dim, H, W⟩) :=
  ⟨fun p H W x => rfl, fun B H W hH hW => lkaShape_same dim B H W hH hW⟩

theorem claim_C9_witness : lkaShape 4 ⟨1, 4, 3, 3⟩ = some ⟨1, 4, 3, 3⟩ :=
  (claim_C9 4).2 1 3 3 (by decide) (by decide)

/-- C10: the constructor never sets `embed_dim`, so `reset_classifier`
raises an attribute error whenever `num_classes > 0`; only the
`num_classes ≤ 0` branch, which installs an identity head, succeeds. -/
theorem claim_C10 (cfg : VANCfg) (n : Int) :
    (0 < n →
      resetClassifier (vanInitAttrs cfg) n = .error .attributeError) ∧
    (n ≤ 0 →
      resetClassifier (vanInitAttrs cfg) n = .ok ⟨n, none, .identity⟩) := by
  constructor
  · intro h
    unfold resetClassifier vanInitAttrs
    rw [if_pos h]
  · intro h
    unfold resetClassifier vanInitAttrs
    rw [if_neg (by omega)]

theorem claim_C10_witness :
    0 < (5 : Int) ∧
      resetClassifier (vanInitAttrs vanTinyCfg) 5 = .error .attributeError :=
  ⟨by decide, (claim_C10 vanTinyCfg 5).1 (by decide)⟩
